import Mathlib

/-!
Shallow embedding of `be/src/io/fs/s3_file_system.cpp` (S3FileSystem), the
object-storage filesystem adapter of the repository.  C++ strings are modelled
as `List Char`; the AWS SDK client is modelled as a record of deterministic
response functions; fallible out-parameters become pairs; the `do { } while`
pagination loops become fuel-indexed recursion returning `Option` (with `none`
meaning the loop did not finish within the given fuel).  Operations that issue
backend requests additionally return a trace of the requests issued, so that
claims about which calls happen (and in which order) are statable.
-/

abbrev Str := List Char

/-- An AWS SDK error: an HTTP-style response code plus a message
(`Aws::Http::HttpResponseCode::NOT_FOUND` is 404). -/
structure AwsError where
  responseCode : Nat
  message : Str
deriving DecidableEq

/-- An AWS SDK outcome: either a result or an error. -/
inductive Outcome (α : Type) where
  | success (result : α)
  | failure (error : AwsError)
deriving DecidableEq

/-- Result of a HeadObject call: the content length. -/
structure HeadResult where
  contentLength : Nat
deriving DecidableEq

/-- Result of a ListObjectsV2 call. -/
structure ListResult where
  contents : List Str
  isTruncated : Bool
  nextContinuationToken : Str
deriving DecidableEq

/-- A ListObjectsV2 request: bucket, key prefix, and the (initially unset)
continuation token. -/
structure ListRequest where
  bucket : Str
  pfx : Str
  continuationToken : Option Str
deriving DecidableEq

/-- A per-object error inside a successful DeleteObjects outcome. -/
structure DeleteError where
  key : Str
  message : Str
deriving DecidableEq

/-- Result of a DeleteObjects call: the list of per-object errors. -/
structure DeleteObjectsResult where
  errors : List DeleteError
deriving DecidableEq

/-- Terminal state of a transfer-manager handle. -/
inductive TransferStatus where
  | completed
  | failed
  | canceled
deriving DecidableEq

/-- A transfer handle after `WaitUntilFinished`: terminal status and last
error message. -/
structure TransferHandle where
  status : TransferStatus
  lastErrorMessage : Str
deriving DecidableEq

/-- The backend object-storage client (`Aws::S3::S3Client`), modelled as a
record of deterministic response functions, one per request kind used by the
filesystem. -/
structure S3ClientModel where
  headObject : Str → Str → Outcome HeadResult
  deleteObject : Str → Str → Outcome Unit
  listObjectsV2 : ListRequest → Outcome ListResult
  deleteObjects : Str → List Str → Outcome DeleteObjectsResult

/-- The transfer manager backend: `UploadFile (local, bucket, key)` yields a
handle whose terminal state is observed after waiting. -/
structure TransferEnv where
  uploadFile : Str → Str → Str → TransferHandle

/-- Connection profile `S3Conf` (fields used by the adapter; `pfx` models the
C++ field `prefix`, which Lean reserves). -/
structure S3Conf where
  endpoint : Str
  bucket : Str
  pfx : Str
deriving DecidableEq

/-- The filesystem instance: connection profile, the root path precomputed at
construction, and the lazily-created client (`none` before `connect`). -/
structure S3FileSystemM where
  conf : S3Conf
  root_path : Str
  client : Option S3ClientModel

/-- `if (prefix.size() > 0 && prefix[0] == '/') prefix = prefix.substr(1);` -/
def stripLeadSlash (p : Str) : Str :=
  if p.head? = some '/' then p.tail else p

/-- `if (!prefix.empty() && prefix.back() == '/') prefix.pop_back();` -/
def stripTrailSlash (p : Str) : Str :=
  if p.getLast? = some '/' then p.dropLast else p

/-- The constructor `S3FileSystem::S3FileSystem`: the root path is the member
initializer `fmt::format("\x7b}/\x7b}/\x7b}", endpoint, bucket, prefix)`,
evaluated before the constructor body normalizes the stored prefix. -/
def mkS3FileSystem (conf : S3Conf) : S3FileSystemM where
  conf := ⟨conf.endpoint, conf.bucket, stripTrailSlash (stripLeadSlash conf.pfx)⟩
  root_path := conf.endpoint ++ '/' :: conf.bucket ++ '/' :: conf.pfx
  client := none

/-- `S3FileSystem::get_key`: if the path starts with the precomputed root
path, format `prefix + "/" + remainder-after-root`, else
`prefix + "/" + path`. -/
def get_key (fs : S3FileSystemM) (path : Str) : Str :=
  if fs.root_path.isPrefixOf path then
    fs.conf.pfx ++ '/' :: path.drop fs.root_path.length
  else
    fs.conf.pfx ++ '/' :: path

/-- `doris::Status`, restricted to the variants this file produces. -/
inductive Status where
  | OK
  | InternalError (msg : Str)
  | InvalidArgument (msg : Str)
  | IOError (msg : Str)
  | NotSupported (msg : Str)
deriving DecidableEq

/-- The message of `CHECK_S3_CLIENT`'s `Status::InternalError`. -/
def clientErrMsg : Str := "init s3 client error".data

/-- Message of `delete_file_impl`'s I/O error. -/
def deleteFileErrMsg (conf : S3Conf) (key msg : Str) : Str :=
  "failed to delete object(endpoint=".data ++ conf.endpoint ++
    ", bucket=".data ++ conf.bucket ++ ", key=".data ++ key ++ "): ".data ++ msg

/-- Message of `exists_impl`'s I/O error. -/
def existsErrMsg (conf : S3Conf) (key msg : Str) : Str :=
  "failed to get object head(endpoint=".data ++ conf.endpoint ++
    ", bucket=".data ++ conf.bucket ++ ", key=".data ++ key ++ "): ".data ++ msg

/-- Message of `file_size_impl`'s I/O error. -/
def fileSizeErrMsg (conf : S3Conf) (key msg : Str) : Str :=
  "failed to get object size(endpoint=".data ++ conf.endpoint ++
    ", bucket=".data ++ conf.bucket ++ ", key=".data ++ key ++ "): ".data ++ msg

/-- Message of the list-page I/O error in `list` and `delete_directory_impl`. -/
def listErrMsg (conf : S3Conf) (p msg : Str) : Str :=
  "failed to list objects(endpoint=".data ++ conf.endpoint ++
    ", bucket=".data ++ conf.bucket ++ ", prefix=".data ++ p ++ "): ".data ++ msg

/-- Message of the bulk-delete failure in `delete_directory_impl`. -/
def deleteDirBulkErrMsg (conf : S3Conf) (p msg : Str) : Str :=
  "failed to delete objects(endpoint=".data ++ conf.endpoint ++
    ", bucket=".data ++ conf.bucket ++ ", prefix=".data ++ p ++ "): ".data ++ msg

/-- Message of the per-object delete error in `delete_directory_impl`. -/
def deleteDirPerObjErrMsg (conf : S3Conf) (key msg : Str) : Str :=
  "fail to delete object(endpoint=".data ++ conf.endpoint ++
    ", bucket=".data ++ conf.bucket ++ ", key=".data ++ key ++ "): ".data ++ msg

/-- Message of the bulk-delete failure in `batch_delete`. -/
def batchDeleteFailMsg (conf : S3Conf) (key0 msg : Str) : Str :=
  "failed to delete objects(endpoint=".data ++ conf.endpoint ++
    ", bucket=".data ++ conf.bucket ++ ", key[0]=".data ++ key0 ++ "): ".data ++ msg

/-- Message of the per-object delete error in `batch_delete` (the source
formats the outcome-level `GetError().GetMessage()` here, which is the empty
default error because the outcome succeeded). -/
def batchDeletePerObjErrMsg (conf : S3Conf) (key msg : Str) : Str :=
  "failed to delete objects(endpoint=".data ++ conf.endpoint ++
    ", bucket=".data ++ conf.bucket ++ ", key=".data ++ key ++ "): ".data ++ msg

/-- Message of `upload_impl`'s I/O error. -/
def uploadErrMsg (conf : S3Conf) (key msg : Str) : Str :=
  "failed to upload(endpoint=".data ++ conf.endpoint ++
    ", bucket=".data ++ conf.bucket ++ ", key=".data ++ key ++ "): ".data ++ msg

/-- `S3FileSystem::exists_impl`; the second component models the `bool* res`
out-parameter (`none` when the function returned without writing it). -/
def exists_impl (fs : S3FileSystemM) (path : Str) : Status × Option Bool :=
  match fs.client with
  | none => (Status.InternalError clientErrMsg, none)
  | some client =>
    let key := get_key fs path
    match client.headObject fs.conf.bucket key with
    | Outcome.success _ => (Status.OK, some true)
    | Outcome.failure e =>
      if e.responseCode = 404 then (Status.OK, some false)
      else (Status.IOError (existsErrMsg fs.conf key e.message), none)

/-- `S3FileSystem::file_size_impl`; the second component models the
`size_t* file_size` out-parameter. -/
def file_size_impl (fs : S3FileSystemM) (path : Str) : Status × Option Nat :=
  match fs.client with
  | none => (Status.InternalError clientErrMsg, none)
  | some client =>
    let key := get_key fs path
    match client.headObject fs.conf.bucket key with
    | Outcome.success r => (Status.OK, some r.contentLength)
    | Outcome.failure e =>
      (Status.IOError (fileSizeErrMsg fs.conf key e.message), none)

/-- `S3FileSystem::delete_file_impl`: success or a 404 response both yield OK. -/
def delete_file_impl (fs : S3FileSystemM) (path : Str) : Status :=
  match fs.client with
  | none => Status.InternalError clientErrMsg
  | some client =>
    let key := get_key fs path
    match client.deleteObject fs.conf.bucket key with
    | Outcome.success _ => Status.OK
    | Outcome.failure e =>
      if e.responseCode = 404 then Status.OK
      else Status.IOError (deleteFileErrMsg fs.conf key e.message)

/-- `S3FileWriter` as constructed by `create_file_impl`: bound to the resolved
key, the client handle returned by `get_client()` (possibly absent), and the
connection profile. -/
structure S3FileWriterM where
  path : Str
  client : Option S3ClientModel
  conf : S3Conf

/-- `S3FileSystem::create_file_impl`: constructs the writer and returns OK,
with no `CHECK_S3_CLIENT` guard. -/
def create_file_impl (fs : S3FileSystemM) (path : Str) :
    Status × S3FileWriterM :=
  (Status.OK, ⟨get_key fs path, fs.client, fs.conf⟩)

/-- `S3FileReader` as constructed by `open_file_impl`. -/
structure S3FileReaderM where
  path : Str
  fileSize : Nat
  key : Str
  bucket : Str
  fsRef : S3FileSystemM

/-- `S3FileSystem::open_file_impl`: probes the size via `file_size`
(propagating its error via `RETURN_IF_ERROR`), then builds the reader. -/
def open_file_impl (fs : S3FileSystemM) (path : Str) :
    Status × Option S3FileReaderM :=
  match file_size_impl fs path with
  | (Status.OK, fsize) =>
    let key := get_key fs path
    let fs_path := fs.conf.endpoint ++ '/' :: fs.conf.bucket ++ '/' :: key
    (Status.OK, some ⟨fs_path, fsize.getD 0, key, fs.conf.bucket, fs⟩)
  | (st, _) => (st, none)

/-- `S3FileSystem::upload_impl`: one transfer, wait, map any non-completed
terminal state to an I/O error. -/
def upload_impl (fs : S3FileSystemM) (env : TransferEnv)
    (local_path dest_path : Str) : Status :=
  match fs.client with
  | none => Status.InternalError clientErrMsg
  | some _ =>
    let key := get_key fs dest_path
    let handle := env.uploadFile local_path fs.conf.bucket key
    if handle.status = TransferStatus.completed then Status.OK
    else Status.IOError (uploadErrMsg fs.conf key handle.lastErrorMessage)

/-- The wait loop of `batch_upload_impl`: handles are waited in submission
order; the first non-completed terminal state yields
`Status::IOError(handle->GetLastError().GetMessage())`. -/
def waitAll : List TransferHandle → Status
  | [] => Status.OK
  | h :: hs =>
    if h.status = TransferStatus.completed then waitAll hs
    else Status.IOError h.lastErrorMessage

/-- `S3FileSystem::batch_upload_impl`; the second component is the trace of
`UploadFile` submissions `(local, key)` issued, in order. -/
def batch_upload_impl (fs : S3FileSystemM) (env : TransferEnv)
    (local_paths dest_paths : List Str) : Status × List (Str × Str) :=
  match fs.client with
  | none => (Status.InternalError clientErrMsg, [])
  | some _ =>
    if local_paths.length ≠ dest_paths.length then
      (Status.InvalidArgument "local_paths.size() != dest_paths.size()".data, [])
    else
      let submissions := local_paths.zip (dest_paths.map (get_key fs))
      let handles := submissions.map fun s => env.uploadFile s.1 fs.conf.bucket s.2
      (waitAll handles, submissions)

/-- `S3FileSystem::create_directory`: unconditional no-op success. -/
def create_directory (_fs : S3FileSystemM) (_path : Str) : Status := Status.OK

/-- `S3FileSystem::link_file`: unconditionally unsupported. -/
def link_file (_fs : S3FileSystemM) (_src _dest : Str) : Status :=
  Status.NotSupported "not support".data

/-- `if (!prefix.empty() && prefix.back() != '/') prefix.push_back('/');` -/
def ensureTrailSlash (p : Str) : Str :=
  if ¬ p.isEmpty ∧ p.getLast? ≠ some '/' then p ++ ['/'] else p

/-- The `do \x7b ... } while (is_trucated)` loop of `S3FileSystem::list`.
Each page's keys are appended with `key.substr(prefix.size())`.  The source
never calls `SetContinuationToken` in this loop (unlike
`delete_directory_impl`), so the request is re-issued unchanged when the
result is truncated.  Fuel-indexed; `none` means the loop did not finish. -/
def listLoop (client : S3ClientModel) (conf : S3Conf) (req : ListRequest)
    (files : List Str) : Nat → Option (Status × List Str)
  | 0 => none
  | fuel + 1 =>
    match client.listObjectsV2 req with
    | Outcome.failure e =>
      some (Status.IOError (listErrMsg conf req.pfx e.message), files)
    | Outcome.success res =>
      let files := files ++ res.contents.map fun k => k.drop req.pfx.length
      if res.isTruncated then listLoop client conf req files fuel
      else some (Status.OK, files)

/-- `S3FileSystem::list`: client guard, trailing-slash normalization of the
resolved key, then the pagination loop starting from a token-less request. -/
def list (fs : S3FileSystemM) (path : Str) (fuel : Nat) :
    Option (Status × List Str) :=
  match fs.client with
  | none => some (Status.InternalError clientErrMsg, [])
  | some client =>
    let p := ensureTrailSlash (get_key fs path)
    listLoop client fs.conf ⟨fs.conf.bucket, p, none⟩ [] fuel

/-- The `do \x7b ... } while (is_trucated)` loop of
`S3FileSystem::delete_directory_impl`.  Non-empty pages trigger a quiet bulk
delete; the continuation token of each page is installed into the request
before the next iteration.  The second component traces the bulk-delete
requests issued, in order. -/
def deleteDirLoop (client : S3ClientModel) (conf : S3Conf) (req : ListRequest)
    (dels : List (List Str)) : Nat → Option (Status × List (List Str))
  | 0 => none
  | fuel + 1 =>
    match client.listObjectsV2 req with
    | Outcome.failure e =>
      some (Status.IOError (listErrMsg conf req.pfx e.message), dels)
    | Outcome.success res =>
      let next := { req with continuationToken := some res.nextContinuationToken }
      if res.contents.isEmpty then
        if res.isTruncated then deleteDirLoop client conf next dels fuel
        else some (Status.OK, dels)
      else
        let dels := dels ++ [res.contents]
        match client.deleteObjects conf.bucket res.contents with
        | Outcome.failure e =>
          some (Status.IOError (deleteDirBulkErrMsg conf req.pfx e.message), dels)
        | Outcome.success r =>
          match r.errors with
          | e :: _ =>
            some (Status.IOError (deleteDirPerObjErrMsg conf e.key e.message), dels)
          | [] =>
            if res.isTruncated then deleteDirLoop client conf next dels fuel
            else some (Status.OK, dels)

/-- `S3FileSystem::delete_directory_impl`: client guard, trailing-slash
normalization, then the paginated list-and-bulk-delete loop. -/
def delete_directory_impl (fs : S3FileSystemM) (path : Str) (fuel : Nat) :
    Option (Status × List (List Str)) :=
  match fs.client with
  | none => some (Status.InternalError clientErrMsg, [])
  | some client =>
    let p := ensureTrailSlash (get_key fs path)
    deleteDirLoop client fs.conf ⟨fs.conf.bucket, p, none⟩ [] fuel

/-- The `do \x7b ... } while (path_iter != paths.end())` loop of
`S3FileSystem::batch_delete`: each iteration resolves at most 1000 paths to
keys, returns OK if the batch is empty, otherwise issues a quiet bulk delete
and stops at the first batch-level or per-object error.  The second component
traces the bulk-delete requests issued, in order.  (In the per-object error
branch the source formats the outcome-level `GetError().GetMessage()`, which
is the default empty message because the outcome succeeded.) -/
def batchDeleteLoop (fs : S3FileSystemM) (client : S3ClientModel)
    (paths : List Str) (dels : List (List Str)) : Status × List (List Str) :=
  let batch := (paths.take 1000).map (get_key fs)
  if batch.isEmpty then (Status.OK, dels)
  else
    let dels := dels ++ [batch]
    match client.deleteObjects fs.conf.bucket batch with
    | Outcome.failure e =>
      (Status.IOError (batchDeleteFailMsg fs.conf batch.headI e.message), dels)
    | Outcome.success r =>
      match r.errors with
      | e :: _ => (Status.IOError (batchDeletePerObjErrMsg fs.conf e.key []), dels)
      | [] =>
        if (paths.drop 1000).isEmpty then (Status.OK, dels)
        else batchDeleteLoop fs client (paths.drop 1000) dels
termination_by paths.length
decreasing_by
  have hp : paths ≠ [] := by
    intro hnil
    subst hnil
    simp_all
  have hlen : 0 < paths.length := List.length_pos.mpr hp
  simp only [List.length_drop]
  exact Nat.sub_lt hlen (by norm_num)

/-- `S3FileSystem::batch_delete`: client guard, then the chunked bulk-delete
loop. -/
def batch_delete (fs : S3FileSystemM) (paths : List Str) :
    Status × List (List Str) :=
  match fs.client with
  | none => (Status.InternalError clientErrMsg, [])
  | some client => batchDeleteLoop fs client paths []

/-- Partition of a list into consecutive runs of 1000 (the last possibly
shorter); the shape `batch_delete`'s trace is expected to take. -/
def chunks1000 : List α → List (List α)
  | [] => []
  | a :: l => (a :: l).take 1000 :: chunks1000 ((a :: l).drop 1000)
termination_by l => l.length
decreasing_by
  simp only [List.length_drop, List.length_cons]
  exact Nat.sub_lt (Nat.succ_pos _) (by norm_num)

/-! ## Concrete fixtures used to exercise the model -/

/-- A profile with endpoint `e`, bucket `b`, prefix `p`. -/
def tconf : S3Conf := ⟨"e".data, "b".data, "p".data⟩

/-- A filesystem on `tconf` before `connect()`: no client. -/
def fsNone : S3FileSystemM := mkS3FileSystem tconf

/-- A backend on which every request succeeds and every listing is a single
empty page. -/
def allOkClient : S3ClientModel where
  headObject := fun _ _ => Outcome.success ⟨0⟩
  deleteObject := fun _ _ => Outcome.success Unit.unit
  listObjectsV2 := fun _ => Outcome.success ⟨[], false, []⟩
  deleteObjects := fun _ _ => Outcome.success ⟨[]⟩

/-- A backend whose object probes and deletes answer 404 (missing key) and
whose listings are a single empty page. -/
def notFoundClient : S3ClientModel where
  headObject := fun _ _ => Outcome.failure ⟨404, "no such key".data⟩
  deleteObject := fun _ _ => Outcome.failure ⟨404, "no such key".data⟩
  listObjectsV2 := fun _ => Outcome.success ⟨[], false, []⟩
  deleteObjects := fun _ _ => Outcome.success ⟨[]⟩

/-- A backend on which every request fails with a hard (non-404) error. -/
def failClient : S3ClientModel where
  headObject := fun _ _ => Outcome.failure ⟨500, "boom".data⟩
  deleteObject := fun _ _ => Outcome.failure ⟨500, "boom".data⟩
  listObjectsV2 := fun _ => Outcome.failure ⟨500, "boom".data⟩
  deleteObjects := fun _ _ => Outcome.failure ⟨500, "boom".data⟩

/-- `fsNone` after a successful `connect()` against `allOkClient`. -/
def fsOk : S3FileSystemM := { fsNone with client := some allOkClient }

/-- `fsNone` connected against `notFoundClient`. -/
def fsNotFound : S3FileSystemM := { fsNone with client := some notFoundClient }

/-- `fsNone` connected against `failClient`. -/
def fsFail : S3FileSystemM := { fsNone with client := some failClient }

/-- A listing backend with two pages under prefix `p/d/`: a token-less request
yields key `p/d/a` with the truncation flag set and continuation token `tok1`;
a request carrying a token yields key `p/d/b` with the flag clear. -/
def twoPageClient : S3ClientModel where
  headObject := fun _ _ => Outcome.success ⟨0⟩
  deleteObject := fun _ _ => Outcome.success Unit.unit
  listObjectsV2 := fun req =>
    if req.continuationToken = none then
      Outcome.success ⟨["p/d/a".data], true, "tok1".data⟩
    else
      Outcome.success ⟨["p/d/b".data], false, "".data⟩
  deleteObjects := fun _ _ => Outcome.success ⟨[]⟩

/-- `fsNone` connected against `twoPageClient`. -/
def fsTwoPage : S3FileSystemM := { fsNone with client := some twoPageClient }

/-- A trivial transfer environment: every upload completes. -/
def okTransferEnv : TransferEnv := ⟨fun _ _ _ => ⟨TransferStatus.completed, []⟩⟩

/-- A transfer environment on which every upload ends in the failed state. -/
def failTransferEnv : TransferEnv :=
  ⟨fun _ _ _ => ⟨TransferStatus.failed, "tfail".data⟩⟩

/-! ## Lemmas about the path/key translator and prefix normalization -/

theorem get_key_of_append (fs : S3FileSystemM) (rest : Str) :
    get_key fs (fs.root_path ++ rest) = fs.conf.pfx ++ '/' :: rest := by
  unfold get_key
  rw [if_pos (List.isPrefixOf_iff_prefix.mpr ⟨rest, rfl⟩)]
  simp

theorem get_key_of_not_prefixed (fs : S3FileSystemM) (path : Str)
    (h : ¬ fs.root_path.isPrefixOf path) :
    get_key fs path = fs.conf.pfx ++ '/' :: path := by
  unfold get_key
  rw [if_neg h]

theorem stripLeadSlash_head (p : Str) (h : ¬ ['/', '/'] <+: p) :
    (stripLeadSlash p).head? ≠ some '/' := by
  unfold stripLeadSlash
  by_cases h1 : p.head? = some '/'
  · rw [if_pos h1]
    cases p with
    | nil => simp at h1
    | cons c rest =>
      simp only [List.head?_cons, Option.some.injEq] at h1
      subst h1
      cases rest with
      | nil => simp
      | cons c2 t =>
        simp only [List.tail_cons, List.head?_cons, ne_eq, Option.some.injEq]
        intro hc2
        subst hc2
        exact h ⟨t, rfl⟩
  · rw [if_neg h1]
    exact h1

theorem stripLeadSlash_suffix (p : Str) : stripLeadSlash p <:+ p := by
  unfold stripLeadSlash
  by_cases h1 : p.head? = some '/'
  · rw [if_pos h1]
    exact List.tail_suffix p
  · rw [if_neg h1]

theorem stripTrailSlash_head (q : Str) (h : q.head? ≠ some '/') :
    (stripTrailSlash q).head? ≠ some '/' := by
  unfold stripTrailSlash
  by_cases h1 : q.getLast? = some '/'
  · rw [if_pos h1]
    cases q with
    | nil => simp
    | cons c rest =>
      cases rest with
      | nil => simp
      | cons c2 t =>
        rw [List.dropLast_cons₂, List.head?_cons]
        simp only [List.head?_cons] at h
        exact h
  · rw [if_neg h1]
    exact h

theorem stripTrailSlash_getLast (q : Str) (h : ¬ ['/', '/'] <:+ q) :
    (stripTrailSlash q).getLast? ≠ some '/' := by
  unfold stripTrailSlash
  by_cases h1 : q.getLast? = some '/'
  · rw [if_pos h1]
    intro h2
    have e1 : q.dropLast.dropLast ++ ['/'] = q.dropLast :=
      List.dropLast_append_getLast? _ h2
    have e2 : q.dropLast ++ ['/'] = q := List.dropLast_append_getLast? _ h1
    apply h
    refine ⟨q.dropLast.dropLast, ?_⟩
    calc q.dropLast.dropLast ++ ['/', '/']
        = (q.dropLast.dropLast ++ ['/']) ++ ['/'] := by simp
      _ = q.dropLast ++ ['/'] := by rw [e1]
      _ = q := e2
  · rw [if_neg h1]
    exact h1

/-! ## C2: the path/key translator -/

/-- C2 counterexample: the claim predicts `get_key(p) = prefix + p[len(root):]`
for root-prefixed `p` and the bare prefix for an empty remainder.  With
endpoint `e`, bucket `b`, prefix `p` (root path `e/b/p`), the code yields
`p//x` for path `e/b/p/x` (the claim predicts `p/x`) and `p/` for path
`e/b/p` (the claim predicts the bare `p`). -/
theorem C2_counterexample :
    get_key (mkS3FileSystem ⟨"e".data, "b".data, "p".data⟩) "e/b/p/x".data
        = "p//x".data
    ∧ "p//x".data ≠ "p".data ++ "/x".data
    ∧ get_key (mkS3FileSystem ⟨"e".data, "b".data, "p".data⟩) "e/b/p".data
        = "p/".data
    ∧ "p/".data ≠ "p".data := by
  exact ⟨by decide, by decide, by decide, by decide⟩

/-- C2 (amended): for every path `p` that starts with the precomputed root
path, `get_key p` equals the stored prefix, a `'/'` separator, then the
remainder of `p` after the root; for every other `p` it equals the prefix,
`'/'`, then `p`; and an empty remainder after root-stripping yields the
prefix followed by a trailing `'/'` (not the bare prefix). -/
theorem C2_get_key_amended (fs : S3FileSystemM) (p : Str) :
    (∀ rest, p = fs.root_path ++ rest →
        get_key fs p = fs.conf.pfx ++ '/' :: rest) ∧
    (¬ fs.root_path.isPrefixOf p → get_key fs p = fs.conf.pfx ++ '/' :: p) ∧
    (p = fs.root_path → get_key fs p = fs.conf.pfx ++ ['/']) := by
  refine ⟨?_, ?_, ?_⟩
  · rintro rest rfl
    exact get_key_of_append fs rest
  · exact get_key_of_not_prefixed fs p
  · rintro rfl
    simpa using get_key_of_append fs []

/-- Witness for C2 (amended) at endpoint `e`, bucket `b`, prefix `p`,
path `e/b/p/x`. -/
theorem C2_get_key_amended_witness :
    get_key (mkS3FileSystem ⟨"e".data, "b".data, "p".data⟩) "e/b/p/x".data
      = (mkS3FileSystem ⟨"e".data, "b".data, "p".data⟩).conf.pfx
          ++ '/' :: "/x".data :=
  (C2_get_key_amended _ _).1 "/x".data (by decide)

/-! ## C7: construction-time prefix normalization and root path -/

/-- C7 counterexample: the claim says the stored prefix never has a leading or
trailing `'/'`, even for supplied prefixes with multiple slashes.  The
constructor strips only one leading and one trailing slash: supplying `//a//`
stores `/a/`, which starts (and ends) with `'/'`. -/
theorem C7_counterexample :
    (mkS3FileSystem ⟨"e".data, "b".data, "//a//".data⟩).conf.pfx = "/a/".data
    ∧ ("/a/".data).head? = some '/' := by
  exact ⟨by decide, by decide⟩

/-- C7 (amended): the constructor removes at most one leading and one trailing
`'/'` from the supplied prefix, so the stored prefix is free of leading and
trailing slashes whenever the supplied prefix does not begin or end with
`"//"`; and the root path used for translator matching is derived once at
construction as `endpoint/bucket/prefix` from the supplied
(pre-normalization) prefix. -/
theorem C7_construction_amended (conf : S3Conf) :
    (mkS3FileSystem conf).root_path
        = conf.endpoint ++ '/' :: conf.bucket ++ '/' :: conf.pfx ∧
    (mkS3FileSystem conf).conf.pfx = stripTrailSlash (stripLeadSlash conf.pfx) ∧
    (¬ ['/', '/'] <+: conf.pfx → ¬ ['/', '/'] <:+ conf.pfx →
      ((mkS3FileSystem conf).conf.pfx.head? ≠ some '/' ∧
        (mkS3FileSystem conf).conf.pfx.getLast? ≠ some '/')) := by
  refine ⟨rfl, rfl, fun h1 h2 => ⟨?_, ?_⟩⟩
  · exact stripTrailSlash_head _ (stripLeadSlash_head _ h1)
  · exact stripTrailSlash_getLast _ fun hs => h2 (hs.trans (stripLeadSlash_suffix _))

/-- Witness for C7 (amended) at supplied prefix `/a/`. -/
theorem C7_construction_amended_witness :
    (¬ ['/', '/'] <+: "/a/".data) ∧ (¬ ['/', '/'] <:+ "/a/".data) ∧
    ((mkS3FileSystem ⟨"e".data, "b".data, "/a/".data⟩).conf.pfx.head?
        ≠ some '/' ∧
      (mkS3FileSystem ⟨"e".data, "b".data, "/a/".data⟩).conf.pfx.getLast?
        ≠ some '/') :=
  ⟨by decide, by decide,
    (C7_construction_amended ⟨"e".data, "b".data, "/a/".data⟩).2.2
      (by decide) (by decide)⟩

/-! ## C3: client guard on operations -/

/-- C3 counterexample: with no client created, `create_file` does not fail
fast — it returns OK and hands out a writer bound to the absent client. -/
theorem C3_counterexample :
    (create_file_impl fsNone "x".data).1 = Status.OK ∧
    (create_file_impl fsNone "x".data).2.client = none ∧
    ∀ msg, Status.OK ≠ Status.InternalError msg := by
  exact ⟨rfl, rfl, fun msg h => Status.noConfusion h⟩

/-- C3 (amended): when no client has been created, every backend-issuing
operation except `create_file` fails fast with the internal error
`init s3 client error` and issues no backend call; `create_file`, which lacks
the guard, instead succeeds and returns a writer bound to the absent
client. -/
theorem C3_client_guard_amended (fs : S3FileSystemM) (env : TransferEnv)
    (p q : Str) (ps qs : List Str) (fuel : Nat) (h : fs.client = none) :
    exists_impl fs p = (Status.InternalError clientErrMsg, none) ∧
    file_size_impl fs p = (Status.InternalError clientErrMsg, none) ∧
    delete_file_impl fs p = Status.InternalError clientErrMsg ∧
    delete_directory_impl fs p fuel
        = some (Status.InternalError clientErrMsg, []) ∧
    list fs p fuel = some (Status.InternalError clientErrMsg, []) ∧
    batch_delete fs ps = (Status.InternalError clientErrMsg, []) ∧
    upload_impl fs env p q = Status.InternalError clientErrMsg ∧
    batch_upload_impl fs env ps qs = (Status.InternalError clientErrMsg, []) ∧
    (create_file_impl fs p).1 = Status.OK ∧
    (create_file_impl fs p).2.client = none := by
  unfold exists_impl file_size_impl delete_file_impl delete_directory_impl
    list batch_delete upload_impl batch_upload_impl create_file_impl
  rw [h]
  simp

/-- Witness for C3 (amended) on `fsNone`. -/
theorem C3_client_guard_amended_witness :
    exists_impl fsNone "x".data = (Status.InternalError clientErrMsg, none) ∧
    (create_file_impl fsNone "x".data).1 = Status.OK :=
  ⟨(C3_client_guard_amended fsNone okTransferEnv "x".data "y".data [] [] 1
      rfl).1,
    (C3_client_guard_amended fsNone okTransferEnv "x".data "y".data [] [] 1
      rfl).2.2.2.2.2.2.2.2.1⟩

/-! ## C5: idempotent single-object delete -/

/-- C5: `delete_file` returns OK when the backend delete succeeds and when it
fails with response code 404; any other failure yields an I/O error carrying
endpoint, bucket, key and the backend's message. -/
theorem C5_delete_file (fs : S3FileSystemM) (client : S3ClientModel)
    (path : Str) (h : fs.client = some client) :
    (∀ r, client.deleteObject fs.conf.bucket (get_key fs path)
          = Outcome.success r →
        delete_file_impl fs path = Status.OK) ∧
    (∀ e, client.deleteObject fs.conf.bucket (get_key fs path)
          = Outcome.failure e →
      (e.responseCode = 404 → delete_file_impl fs path = Status.OK) ∧
      (e.responseCode ≠ 404 →
        delete_file_impl fs path
          = Status.IOError
              (deleteFileErrMsg fs.conf (get_key fs path) e.message))) := by
  unfold delete_file_impl
  rw [h]
  refine ⟨fun r hr => ?_, fun e he => ⟨fun h404 => ?_, fun h404 => ?_⟩⟩
  · simp [hr]
  · simp [he, h404]
  · simp [he, h404]

/-- Witness for C5: deleting a missing key (404 backend) succeeds, and a hard
backend failure (500) yields the formatted I/O error. -/
theorem C5_delete_file_witness :
    delete_file_impl fsNotFound "x".data = Status.OK ∧
    delete_file_impl fsFail "x".data
      = Status.IOError
          (deleteFileErrMsg fsFail.conf (get_key fsFail "x".data)
            "boom".data) :=
  ⟨((C5_delete_file fsNotFound notFoundClient "x".data rfl).2
      ⟨404, "no such key".data⟩ rfl).1 rfl,
    ((C5_delete_file fsFail failClient "x".data rfl).2
      ⟨500, "boom".data⟩ rfl).2 (by decide)⟩

/-! ## C9: batch_delete on the empty list -/

/-- C9: with a client present, `batch_delete []` returns OK and issues no
bulk-delete call (the trace of issued requests is empty). -/
theorem C9_batch_delete_empty (fs : S3FileSystemM) (client : S3ClientModel)
    (h : fs.client = some client) :
    batch_delete fs [] = (Status.OK, []) := by
  unfold batch_delete
  rw [h]
  unfold batchDeleteLoop
  simp

/-- Witness for C9 on `fsOk`. -/
theorem C9_batch_delete_empty_witness :
    batch_delete fsOk [] = (Status.OK, []) :=
  C9_batch_delete_empty fsOk allOkClient rfl

/-! ## C8: open_file probes the size first -/

/-- C8: `open_file` probes the object via `file_size`; when the probe fails
(e.g. a missing key) it returns exactly the probe's error and no reader; on
success it returns a reader carrying the resolved path, the probed size
(size 0 included), the resolved key, the bucket, and a reference back to the
owning filesystem. -/
theorem C8_open_file (fs : S3FileSystemM) (client : S3ClientModel) (path : Str)
    (h : fs.client = some client) :
    (∀ e, client.headObject fs.conf.bucket (get_key fs path)
          = Outcome.failure e →
        file_size_impl fs path
          = (Status.IOError (fileSizeErrMsg fs.conf (get_key fs path)
              e.message), none) ∧
        open_file_impl fs path
          = (Status.IOError (fileSizeErrMsg fs.conf (get_key fs path)
              e.message), none)) ∧
    (∀ len, client.headObject fs.conf.bucket (get_key fs path)
          = Outcome.success ⟨len⟩ →
        open_file_impl fs path
          = (Status.OK,
              some ⟨fs.conf.endpoint ++ '/' :: fs.conf.bucket
                      ++ '/' :: get_key fs path,
                len, get_key fs path, fs.conf.bucket, fs⟩)) := by
  constructor
  · intro e he
    have hfs : file_size_impl fs path
        = (Status.IOError (fileSizeErrMsg fs.conf (get_key fs path)
            e.message), none) := by
      unfold file_size_impl
      rw [h]
      simp [he]
    refine ⟨hfs, ?_⟩
    unfold open_file_impl
    rw [hfs]
  · intro len hl
    have hfs : file_size_impl fs path = (Status.OK, some len) := by
      unfold file_size_impl
      rw [h]
      simp [hl]
    unfold open_file_impl
    rw [hfs]
    simp

/-- Witness for C8: a missing key propagates the probe's 404 error; a size-0
object yields a reader reporting size 0. -/
theorem C8_open_file_witness :
    open_file_impl fsNotFound "x".data
      = (Status.IOError (fileSizeErrMsg fsNotFound.conf
          (get_key fsNotFound "x".data) "no such key".data), none) ∧
    open_file_impl fsOk "x".data
      = (Status.OK,
          some ⟨fsOk.conf.endpoint ++ '/' :: fsOk.conf.bucket
                  ++ '/' :: get_key fsOk "x".data,
            0, get_key fsOk "x".data, fsOk.conf.bucket, fsOk⟩) :=
  ⟨((C8_open_file fsNotFound notFoundClient "x".data rfl).1
      ⟨404, "no such key".data⟩ rfl).2,
    (C8_open_file fsOk allOkClient "x".data rfl).2 0 rfl⟩

/-! ## C6: batch_upload -/

theorem waitAll_append_completed (pre rest : List TransferHandle)
    (h : ∀ x ∈ pre, x.status = TransferStatus.completed) :
    waitAll (pre ++ rest) = waitAll rest := by
  induction pre with
  | nil => rfl
  | cons a t ih =>
    simp only [List.cons_append, waitAll]
    rw [if_pos (h a (List.mem_cons_self a t))]
    exact ih fun x hx => h x (List.mem_cons_of_mem a hx)

theorem waitAll_all_completed (hs : List TransferHandle)
    (h : ∀ x ∈ hs, x.status = TransferStatus.completed) :
    waitAll hs = Status.OK := by
  induction hs with
  | nil => rfl
  | cons a t ih =>
    simp only [waitAll]
    rw [if_pos (h a (List.mem_cons_self a t))]
    exact ih fun x hx => h x (List.mem_cons_of_mem a hx)

/-- C6: with a valid client, `batch_upload` on mismatched-length inputs
returns an invalid-argument error and submits no transfer; on equal-length
inputs it submits every transfer (in submission order) before waiting, and
waiting in submission order yields OK when all handles complete, and the I/O
error carrying the backend's message of the first non-completed handle
otherwise. -/
theorem C6_batch_upload (fs : S3FileSystemM) (client : S3ClientModel)
    (env : TransferEnv) (locals dests : List Str)
    (h : fs.client = some client) :
    (locals.length ≠ dests.length →
      batch_upload_impl fs env locals dests
        = (Status.InvalidArgument
            "local_paths.size() != dest_paths.size()".data, [])) ∧
    (locals.length = dests.length →
      (batch_upload_impl fs env locals dests).2
          = locals.zip (dests.map (get_key fs)) ∧
      ∀ pre hdl post,
        (locals.zip (dests.map (get_key fs))).map
            (fun s => env.uploadFile s.1 fs.conf.bucket s.2)
          = pre ++ hdl :: post →
        (∀ x ∈ pre, x.status = TransferStatus.completed) →
        hdl.status ≠ TransferStatus.completed →
        (batch_upload_impl fs env locals dests).1
          = Status.IOError hdl.lastErrorMessage) ∧
    (locals.length = dests.length →
      (∀ x ∈ (locals.zip (dests.map (get_key fs))).map
          (fun s => env.uploadFile s.1 fs.conf.bucket s.2),
        x.status = TransferStatus.completed) →
      (batch_upload_impl fs env locals dests).1 = Status.OK) := by
  refine ⟨fun hne => ?_, fun heq => ⟨?_, ?_⟩, fun heq hall => ?_⟩
  · unfold batch_upload_impl
    rw [h, if_pos hne]
  · unfold batch_upload_impl
    rw [h, if_neg (not_not_intro heq)]
  · intro pre hdl post hdec hpre hbad
    unfold batch_upload_impl
    rw [h, if_neg (not_not_intro heq)]
    show waitAll _ = _
    rw [hdec, waitAll_append_completed _ _ hpre]
    simp only [waitAll]
    rw [if_neg hbad]
  · unfold batch_upload_impl
    rw [h, if_neg (not_not_intro heq)]
    exact waitAll_all_completed _ hall

/-- Witness for C6: three local paths and two destinations give the
invalid-argument error with no submission; a single failing transfer gives
the I/O error with its message. -/
theorem C6_batch_upload_witness :
    batch_upload_impl fsOk okTransferEnv
        ["a".data, "b".data, "c".data] ["d".data, "e".data]
      = (Status.InvalidArgument
          "local_paths.size() != dest_paths.size()".data, []) ∧
    (batch_upload_impl fsOk failTransferEnv ["l".data] ["d".data]).1
      = Status.IOError "tfail".data :=
  ⟨(C6_batch_upload fsOk allOkClient okTransferEnv
      ["a".data, "b".data, "c".data] ["d".data, "e".data] rfl).1
      (by decide),
    ((C6_batch_upload fsOk allOkClient failTransferEnv
        ["l".data] ["d".data] rfl).2.1 rfl).2
      [] ⟨TransferStatus.failed, "tfail".data⟩ [] rfl
      (fun x hx => absurd hx (List.not_mem_nil x)) (by decide)⟩

/-! ## C10: delete_directory over an empty pseudo-directory -/

theorem deleteDirLoop_empty_pages (client : S3ClientModel) (conf : S3Conf)
    (hempty : ∀ req, ∃ trunc next,
      client.listObjectsV2 req = Outcome.success ⟨[], trunc, next⟩) :
    ∀ (fuel : Nat) (req : ListRequest) (dels0 : List (List Str)) (st : Status)
      (dels : List (List Str)),
      deleteDirLoop client conf req dels0 fuel = some (st, dels) →
      st = Status.OK ∧ dels = dels0 := by
  intro fuel
  induction fuel with
  | zero =>
    intro req dels0 st dels h
    exact absurd h (by simp [deleteDirLoop])
  | succ n ih =>
    intro req dels0 st dels h
    obtain ⟨trunc, next, heq⟩ := hempty req
    rw [deleteDirLoop, heq] at h
    simp only [List.isEmpty_nil, if_true] at h
    split at h
    · exact ih _ _ _ _ h
    · simp only [Option.some.injEq, Prod.mk.injEq] at h
      exact ⟨h.1.symm, h.2.symm⟩

/-- C10: with a client present, if every page of the listing succeeds with
zero objects, then whenever `delete_directory` terminates it returns OK and
its trace of bulk-delete requests is empty. -/
theorem C10_delete_directory_empty (fs : S3FileSystemM)
    (client : S3ClientModel) (path : Str) (fuel : Nat) (st : Status)
    (dels : List (List Str)) (h : fs.client = some client)
    (hempty : ∀ req, ∃ trunc next,
      client.listObjectsV2 req = Outcome.success ⟨[], trunc, next⟩)
    (hrun : delete_directory_impl fs path fuel = some (st, dels)) :
    st = Status.OK ∧ dels = [] := by
  unfold delete_directory_impl at hrun
  rw [h] at hrun
  exact deleteDirLoop_empty_pages client fs.conf hempty fuel _ [] st dels hrun

/-- Witness for C10: a backend whose listing is one empty page. -/
theorem C10_delete_directory_empty_witness :
    delete_directory_impl fsNotFound "d".data 1 = some (Status.OK, []) ∧
    (Status.OK = Status.OK ∧ ([] : List (List Str)) = []) :=
  ⟨by decide,
    C10_delete_directory_empty fsNotFound notFoundClient "d".data 1
      Status.OK [] rfl (fun _ => ⟨false, [], rfl⟩) (by decide)⟩

/-! ## C1: pagination of list -/

theorem listLoop_twoPage_none (conf : S3Conf) (req : ListRequest)
    (hreq : req.continuationToken = none) :
    ∀ (fuel : Nat) (files : List Str),
      listLoop twoPageClient conf req files fuel = none := by
  intro fuel
  induction fuel with
  | zero => intro files; rfl
  | succ n ih =>
    intro files
    rw [listLoop]
    show (match twoPageClient.listObjectsV2 req with
      | Outcome.failure e =>
        some (Status.IOError (listErrMsg conf req.pfx e.message), files)
      | Outcome.success res =>
        let files := files ++ res.contents.map fun k => k.drop req.pfx.length
        if res.isTruncated then listLoop twoPageClient conf req files n
        else some (Status.OK, files)) = none
    have hcl : twoPageClient.listObjectsV2 req
        = Outcome.success ⟨["p/d/a".data], true, "tok1".data⟩ := by
      unfold twoPageClient
      simp [hreq]
    rw [hcl]
    exact ih _

/-- C1 (code bug): `list` never installs the continuation token into the
request, so against a backend whose first page reports truncation the loop
re-issues the token-less request forever and never terminates (for every
fuel, the loop is still running), instead of fetching the second page;
`delete_directory_impl`, which does install the token, finishes on the same
two-page backend in two iterations and sees both objects. -/
theorem C1_list_ignores_continuation_token :
    (∀ fuel : Nat, list fsTwoPage "d".data fuel = none) ∧
    delete_directory_impl fsTwoPage "d".data 2
      = some (Status.OK, [["p/d/a".data], ["p/d/b".data]]) := by
  constructor
  · intro fuel
    have h : fsTwoPage.client = some twoPageClient := rfl
    unfold list
    rw [h]
    exact listLoop_twoPage_none fsTwoPage.conf _ rfl fuel []
  · decide

/-! ## C4: chunked batch_delete -/

theorem chunks1000_nil : chunks1000 ([] : List α) = [] := by
  rw [chunks1000]

theorem chunks1000_cons (a : α) (l : List α) :
    chunks1000 (a :: l)
      = (a :: l).take 1000 :: chunks1000 ((a :: l).drop 1000) := by
  rw [chunks1000]

theorem chunks1000_pos (l : List α) (h : l ≠ []) :
    chunks1000 l = l.take 1000 :: chunks1000 (l.drop 1000) := by
  match l with
  | [] => exact absurd rfl h
  | a :: t => exact chunks1000_cons a t

theorem chunks1000_length_le_aux :
    ∀ (N : Nat) (l : List α), l.length ≤ N →
      ∀ c ∈ chunks1000 l, c.length ≤ 1000 := by
  intro N
  induction N with
  | zero =>
    intro l hl c hc
    have hp : l = [] := List.length_eq_zero.mp (Nat.le_zero.mp hl)
    subst hp
    rw [chunks1000_nil] at hc
    exact absurd hc (List.not_mem_nil c)
  | succ n ih =>
    intro l hl c hc
    match l with
    | [] =>
      rw [chunks1000_nil] at hc
      exact absurd hc (List.not_mem_nil c)
    | a :: t =>
      rw [chunks1000_cons] at hc
      rcases List.mem_cons.mp hc with h | h
      · subst h
        exact List.length_take_le 1000 (a :: t)
      · refine ih ((a :: t).drop 1000) ?_ c h
        simp only [List.length_drop, List.length_cons]
        simp only [List.length_cons] at hl
        omega

theorem chunks1000_length_le (l : List α) :
    ∀ c ∈ chunks1000 l, c.length ≤ 1000 :=
  chunks1000_length_le_aux l.length l le_rfl

theorem chunks1000_flatten_aux :
    ∀ (N : Nat) (l : List α), l.length ≤ N → (chunks1000 l).flatten = l := by
  intro N
  induction N with
  | zero =>
    intro l hl
    have hp : l = [] := List.length_eq_zero.mp (Nat.le_zero.mp hl)
    subst hp
    rw [chunks1000_nil]
    rfl
  | succ n ih =>
    intro l hl
    match l with
    | [] =>
      rw [chunks1000_nil]
      rfl
    | a :: t =>
      rw [chunks1000_cons]
      rw [List.flatten_cons]
      rw [ih ((a :: t).drop 1000) (by
        simp only [List.length_drop, List.length_cons]
        simp only [List.length_cons] at hl
        omega)]
      exact List.take_append_drop 1000 (a :: t)

theorem chunks1000_flatten (l : List α) : (chunks1000 l).flatten = l :=
  chunks1000_flatten_aux l.length l le_rfl

theorem chunks1000_replicate_2500 (x : α) :
    chunks1000 (List.replicate 2500 x)
      = [List.replicate 1000 x, List.replicate 1000 x,
          List.replicate 500 x] := by
  rw [chunks1000_pos _ (List.ne_nil_of_length_pos
        (by rw [List.length_replicate]; norm_num)),
    List.take_replicate, List.drop_replicate]
  norm_num
  rw [chunks1000_pos _ (List.ne_nil_of_length_pos
        (by rw [List.length_replicate]; norm_num)),
    List.take_replicate, List.drop_replicate]
  norm_num
  rw [chunks1000_pos _ (List.ne_nil_of_length_pos
        (by rw [List.length_replicate]; norm_num)),
    List.take_replicate, List.drop_replicate]
  norm_num
  rw [chunks1000_nil]

theorem batchDeleteLoop_all_success (fs : S3FileSystemM)
    (client : S3ClientModel)
    (hc : ∀ keys, client.deleteObjects fs.conf.bucket keys
      = Outcome.success ⟨[]⟩) :
    ∀ (N : Nat) (paths : List Str), paths.length ≤ N →
      ∀ dels, batchDeleteLoop fs client paths dels
        = (Status.OK,
            dels ++ (chunks1000 paths).map (List.map (get_key fs))) := by
  intro N
  induction N with
  | zero =>
    intro paths hlen dels
    have hp : paths = [] := List.length_eq_zero.mp (Nat.le_zero.mp hlen)
    subst hp
    rw [batchDeleteLoop]
    simp [chunks1000_nil]
  | succ n ih =>
    intro paths hlen dels
    match paths with
    | [] =>
      rw [batchDeleteLoop]
      simp [chunks1000_nil]
    | a :: t =>
      have hne : ¬ ((List.map (get_key fs)
          (List.take 1000 (a :: t))).isEmpty = true) := by
        simp [List.isEmpty_iff, List.take_eq_nil_iff]
      rw [batchDeleteLoop, if_neg hne]
      simp only [hc]
      by_cases hd : (List.drop 1000 (a :: t)).isEmpty = true
      · rw [if_pos hd]
        rw [chunks1000_cons, List.isEmpty_iff.mp hd, chunks1000_nil]
        simp
      · rw [if_neg hd]
        rw [ih (List.drop 1000 (a :: t)) (by
            simp only [List.length_drop, List.length_cons]
            simp only [List.length_cons] at hlen
            omega)]
        rw [chunks1000_cons]
        simp

theorem batchDeleteLoop_first_bad (fs : S3FileSystemM)
    (client : S3ClientModel) :
    ∀ (pre : List (List Str)) (paths : List Str) (dels : List (List Str))
      (bad : List Str) (post : List (List Str)),
      (chunks1000 paths).map (List.map (get_key fs)) = pre ++ bad :: post →
      (∀ c ∈ pre, client.deleteObjects fs.conf.bucket c
        = Outcome.success ⟨[]⟩) →
      (∀ e, client.deleteObjects fs.conf.bucket bad = Outcome.failure e →
        batchDeleteLoop fs client paths dels
          = (Status.IOError (batchDeleteFailMsg fs.conf bad.headI e.message),
              dels ++ (pre ++ [bad]))) ∧
      (∀ err errs,
        client.deleteObjects fs.conf.bucket bad
          = Outcome.success ⟨err :: errs⟩ →
        batchDeleteLoop fs client paths dels
          = (Status.IOError (batchDeletePerObjErrMsg fs.conf err.key []),
              dels ++ (pre ++ [bad]))) := by
  intro pre
  induction pre with
  | nil =>
    intro paths dels bad post hdec hpre
    match paths with
    | [] =>
      rw [chunks1000_nil] at hdec
      simp at hdec
    | a :: t =>
      rw [chunks1000_cons] at hdec
      simp only [List.map_cons, List.nil_append, List.cons.injEq] at hdec
      obtain ⟨hbatch, hrest⟩ := hdec
      subst hbatch
      have hne : ¬ ((List.map (get_key fs)
          (List.take 1000 (a :: t))).isEmpty = true) := by
        simp [List.isEmpty_iff, List.take_eq_nil_iff]
      constructor
      · intro e he
        rw [batchDeleteLoop, if_neg hne]
        simp only [he, List.nil_append]
      · intro err errs he
        rw [batchDeleteLoop, if_neg hne]
        simp only [he, List.nil_append]
  | cons c pre' ih =>
    intro paths dels bad post hdec hpre
    match paths with
    | [] =>
      rw [chunks1000_nil] at hdec
      simp at hdec
    | a :: t =>
      rw [chunks1000_cons] at hdec
      simp only [List.map_cons, List.cons_append, List.cons.injEq] at hdec
      obtain ⟨hc1, hrest⟩ := hdec
      have hcsucc : client.deleteObjects fs.conf.bucket
          (List.map (get_key fs) (List.take 1000 (a :: t)))
          = Outcome.success ⟨[]⟩ := by
        rw [hc1]
        exact hpre c (List.mem_cons_self c pre')
      have hne : ¬ ((List.map (get_key fs)
          (List.take 1000 (a :: t))).isEmpty = true) := by
        simp [List.isEmpty_iff, List.take_eq_nil_iff]
      have hdne : ¬ ((List.drop 1000 (a :: t)).isEmpty = true) := by
        intro hd
        rw [List.isEmpty_iff.mp hd, chunks1000_nil] at hrest
        simp at hrest
      have step : batchDeleteLoop fs client (a :: t) dels
          = batchDeleteLoop fs client (List.drop 1000 (a :: t))
              (dels ++ [c]) := by
        rw [batchDeleteLoop, if_neg hne]
        simp only [hcsucc]
        rw [if_neg hdne, hc1]
      obtain ⟨ih1, ih2⟩ := ih (List.drop 1000 (a :: t)) (dels ++ [c]) bad post
        hrest (fun x hx => hpre x (List.mem_cons_of_mem c hx))
      constructor
      · intro e he
        rw [step, ih1 e he]
        simp
      · intro err errs he
        rw [step, ih2 err errs he]
        simp

/-- C4: with a client present, `batch_delete` submits quiet bulk deletes in
consecutive batches of at most 1000 keys, in submission order, covering every
path exactly once (the concatenation of the issued batches is the key list in
order); on 2500 paths it issues exactly 3 calls, the last carrying 500 items;
and at the first batch whose backend outcome is a failure or reports a
per-object error it returns that error immediately, with the trace showing
the earlier (not rolled back) batches and the failing one but none after. -/
theorem C4_batch_delete (fs : S3FileSystemM) (client : S3ClientModel)
    (paths : List Str) (h : fs.client = some client) :
    ((∀ keys, client.deleteObjects fs.conf.bucket keys
        = Outcome.success ⟨[]⟩) →
      batch_delete fs paths
          = (Status.OK, (chunks1000 paths).map (List.map (get_key fs))) ∧
      (∀ c ∈ (batch_delete fs paths).2, c.length ≤ 1000) ∧
      (batch_delete fs paths).2.flatten = paths.map (get_key fs)) ∧
    (∀ pre bad post,
      (chunks1000 paths).map (List.map (get_key fs)) = pre ++ bad :: post →
      (∀ c ∈ pre, client.deleteObjects fs.conf.bucket c
        = Outcome.success ⟨[]⟩) →
      (∀ e, client.deleteObjects fs.conf.bucket bad = Outcome.failure e →
        batch_delete fs paths
          = (Status.IOError (batchDeleteFailMsg fs.conf bad.headI e.message),
              pre ++ [bad])) ∧
      (∀ err errs,
        client.deleteObjects fs.conf.bucket bad
          = Outcome.success ⟨err :: errs⟩ →
        batch_delete fs paths
          = (Status.IOError (batchDeletePerObjErrMsg fs.conf err.key []),
              pre ++ [bad]))) ∧
    batch_delete fsOk (List.replicate 2500 "x".data)
        = (Status.OK,
            [List.replicate 1000 (get_key fsOk "x".data),
              List.replicate 1000 (get_key fsOk "x".data),
              List.replicate 500 (get_key fsOk "x".data)]) ∧
    (batch_delete fsOk (List.replicate 2500 "x".data)).2.length = 3 ∧
    ((batch_delete fsOk (List.replicate 2500 "x".data)).2.getLast?).map
        List.length = some 500 := by
  have hconc : batch_delete fsOk (List.replicate 2500 "x".data)
      = (Status.OK,
          [List.replicate 1000 (get_key fsOk "x".data),
            List.replicate 1000 (get_key fsOk "x".data),
            List.replicate 500 (get_key fsOk "x".data)]) := by
    unfold batch_delete
    show batchDeleteLoop fsOk allOkClient _ [] = _
    rw [batchDeleteLoop_all_success fsOk allOkClient (fun _ => rfl) 2500
      (List.replicate 2500 "x".data) (by rw [List.length_replicate]) []]
    rw [chunks1000_replicate_2500]
    rw [List.map_cons, List.map_cons, List.map_cons, List.map_nil,
      List.map_replicate, List.map_replicate, List.nil_append]
  refine ⟨fun hc => ?_, fun pre bad post hdec hpre => ?_, hconc, ?_, ?_⟩
  · have hb : batch_delete fs paths
        = (Status.OK, (chunks1000 paths).map (List.map (get_key fs))) := by
      unfold batch_delete
      rw [h]
      show batchDeleteLoop fs client paths [] = _
      rw [batchDeleteLoop_all_success fs client hc paths.length paths
        le_rfl []]
      rw [List.nil_append]
    refine ⟨hb, ?_, ?_⟩
    · intro c hcmem
      rw [hb] at hcmem
      obtain ⟨orig, horig, hceq⟩ := List.mem_map.mp hcmem
      rw [← hceq, List.length_map]
      exact chunks1000_length_le paths orig horig
    · rw [hb]
      show ((chunks1000 paths).map (List.map (get_key fs))).flatten = _
      rw [← List.map_flatten, chunks1000_flatten]
  · have hlift := batchDeleteLoop_first_bad fs client pre paths [] bad post
      hdec hpre
    constructor
    · intro e he
      unfold batch_delete
      rw [h]
      show batchDeleteLoop fs client paths [] = _
      rw [hlift.1 e he, List.nil_append]
    · intro err errs he
      unfold batch_delete
      rw [h]
      show batchDeleteLoop fs client paths [] = _
      rw [hlift.2 err errs he, List.nil_append]
  · rw [hconc]
    rfl
  · rw [hconc]
    have hg : ([List.replicate 1000 (get_key fsOk "x".data),
        List.replicate 1000 (get_key fsOk "x".data),
        List.replicate 500 (get_key fsOk "x".data)]).getLast?
        = some (List.replicate 500 (get_key fsOk "x".data)) := rfl
    show ([List.replicate 1000 (get_key fsOk "x".data),
        List.replicate 1000 (get_key fsOk "x".data),
        List.replicate 500 (get_key fsOk "x".data)]).getLast?.map
          List.length = some 500
    rw [hg, Option.map_some', List.length_replicate]

/-- Witness for C4: a two-path input forms a single batch of 2 keys covering
both paths in order, and a backend failing that batch makes `batch_delete`
return the formatted error with exactly that batch issued. -/
theorem C4_batch_delete_witness :
    batch_delete fsOk ["a".data, "b".data]
      = (Status.OK, [[get_key fsOk "a".data, get_key fsOk "b".data]]) ∧
    batch_delete fsFail ["a".data, "b".data]
      = (Status.IOError (batchDeleteFailMsg fsFail.conf
            (get_key fsFail "a".data) "boom".data),
          [[get_key fsFail "a".data, get_key fsFail "b".data]]) := by
  constructor
  · have := (C4_batch_delete fsOk allOkClient ["a".data, "b".data] rfl).1
      (fun _ => rfl)
    rw [this.1]
    rw [chunks1000_cons]
    simp [chunks1000_nil]
  · have := ((C4_batch_delete fsFail failClient ["a".data, "b".data] rfl).2.1
      [] [get_key fsFail "a".data, get_key fsFail "b".data] []
      (by rw [chunks1000_cons]; simp [chunks1000_nil])
      (fun c hc => absurd hc (List.not_mem_nil c))).1
      ⟨500, "boom".data⟩ rfl
    rw [this]
    simp [List.headI]
